import Mathlib

/-!
Verification of the p-101 notebook (`src/p101.ipynb`).

Part 1 embeds the four Python functions defined in the notebook's code
cells (`call_unreliable_api`, `augment_data`, `write_results_to_database`,
`pipeline`).  Python dictionaries with string keys are modelled as ordered
association lists with Python's update semantics (assignment to an
existing key replaces its value in place, a new key is appended);
`random.choice` is modelled by passing the chosen index explicitly;
raising an exception is modelled by `Except.error` carrying the message.

Part 2 models the Retrying Task Executor described by the specification:
the retry behaviour itself is implemented by the external framework
(only the decorator parameters `retries=4, retry_delay_seconds=2` appear
in the notebook), so the executor is modelled from the specification text.
-/

namespace P101

/-- A primitive Python value as it occurs in the notebook: an int or a str. -/
inductive PyPrim where
  | pint (n : Int)
  | pstr (s : String)
deriving DecidableEq, Repr

/-- A Python dict with string keys, as an ordered association list. -/
abbrev Dict := List (String × PyPrim)

/-- A Python value as it occurs in the notebook: a primitive or a dict. -/
inductive PyVal where
  | prim (p : PyPrim)
  | vdict (d : Dict)
deriving DecidableEq, Repr

/-- Python dict lookup `d[k]`: the value of the first entry with key `k`. -/
def dictGet : Dict → String → Option PyPrim
  | [], _ => none
  | (k0, v0) :: rest, k => if k0 = k then some v0 else dictGet rest k

/-- Python dict assignment `d[k] = v`: replace the value of an existing
key in place, otherwise append the new entry at the end. -/
def dictSet : Dict → String → PyPrim → Dict
  | [], k, v => [(k, v)]
  | (k0, v0) :: rest, k, v =>
    if k0 = k then (k, v) :: rest else (k0, v0) :: dictSet rest k v

/-- The literal list `choices = [{"data": 42}, "failure"]` from
`call_unreliable_api` in the notebook. -/
def choices : List PyVal :=
  [PyVal.vdict [("data", PyPrim.pint 42)], PyVal.prim (PyPrim.pstr "failure")]

/-- `call_unreliable_api` from the notebook: pick an element of `choices`
(`random.choice` is modelled by the explicit index `pick`); if the chosen
element equals `"failure"`, raise `Exception("Our unreliable service
failed")`, otherwise return the chosen element. -/
def call_unreliable_api (pick : Fin choices.length) : Except String PyVal :=
  let res := choices.get pick
  if res = PyVal.prim (PyPrim.pstr "failure") then
    Except.error "Our unreliable service failed"
  else
    Except.ok res

/-- A heap of Python dict objects, indexed by object reference.  Mutation
of a dict in place is an update of the heap at that reference. -/
abbrev Heap := Nat → Dict

/-- `augment_data(data, msg)` from the notebook: `data["message"] = msg;
return data`.  `data` is a reference to a dict on the heap; the dict is
mutated in place and the same reference is returned. -/
def augment_data (heap : Heap) (data : Nat) (msg : String) : Heap × Nat :=
  (Function.update heap data (dictSet (heap data) "message" (PyPrim.pstr msg)), data)

/-- `write_results_to_database(data)` from the notebook: it prints
`Wrote {data} to database successfully!` and returns `"Success!"`.
The first component records the dict written (the observable effect of
the print), the second is the return value. -/
def write_results_to_database (data : Dict) : Dict × String :=
  (data, "Success!")

/-- `pipeline(msg)` from the notebook:
`api_result = call_unreliable_api()`;
`augmented_data = augment_data(data=api_result, msg=msg)`;
`write_results_to_database(augmented_data)`; no return statement, so the
function returns Python `None` (modelled as `none`).  An exception from
`call_unreliable_api` propagates out of `pipeline`.  On success the
result records the dict passed to `write_results_to_database`, the string
it returned, and `pipeline`'s own return value. -/
def pipeline (pick : Fin choices.length) (msg : String) :
    Except String (Dict × String × Option PyVal) :=
  match call_unreliable_api pick with
  | Except.error e => Except.error e
  | Except.ok api_result =>
    match api_result with
    | PyVal.vdict d0 =>
      let st := augment_data (fun _ => d0) 0 msg
      let augmented_data := st.1 st.2
      let written := write_results_to_database augmented_data
      Except.ok (written.1, written.2, none)
    | PyVal.prim _ => Except.error "TypeError: item assignment on non-dict"

/-- The distinct function names bound by `def` statements across the
notebook's code cells (lines 52-71 and the later cells repeat the same
four names). -/
def notebookDefs : List String :=
  ["call_unreliable_api", "augment_data", "write_results_to_database", "pipeline"]

/-- A sample heap holding the dict `{"data": 42}` at every reference;
used to evaluate `augment_data` on a concrete input. -/
def heap0 : Heap := fun _ => [("data", PyPrim.pint 42)]

instance {ε α : Type} [DecidableEq ε] [DecidableEq α] : DecidableEq (Except ε α) :=
  fun x y =>
  match x, y with
  | Except.ok a, Except.ok b =>
    if h : a = b then isTrue (by rw [h]) else isFalse (by simp [h])
  | Except.ok _, Except.error _ => isFalse (by simp)
  | Except.error _, Except.ok _ => isFalse (by simp)
  | Except.error e, Except.error f =>
    if h : e = f then isTrue (by rw [h]) else isFalse (by simp [h])

/-- Modelled from the spec: one Attempt Record of the Retrying Task
Executor, carrying the 1-based ordinal index of the attempt, the
attempt's outcome (success with a value, or failure with an error
description), and its timestamp.  The executor itself is implemented by
the external framework; only the decorator parameters appear in the
notebook. -/
structure AttemptRecord (α : Type) where
  idx : Nat
  result : Except String α
  time : Nat
deriving DecidableEq, Repr

/-- Modelled from the spec: the Invocation Outcome of the Retrying Task
Executor, either the successful return value from the last attempt or a
terminal failure carrying the last attempt's error once retries are
exhausted. -/
inductive Outcome (α : Type) where
  | success (v : α)
  | retriesExhausted (err : String)
deriving DecidableEq, Repr

/-- Modelled from the spec: the attempt loop of the Retrying Task
Executor.  `body j` is what the work body does on its `j`-th invocation
(success with a value, or an error), `d` is the fixed retry delay,
`remaining` the number of retries still allowed, `i` the 1-based ordinal
of the current attempt, `now` the current time.  Each attempt appends an
Attempt Record; on success the value is returned immediately; on failure
with retries remaining the executor waits `d` and re-invokes; otherwise
it yields the terminal failure carrying the last error.  Returns the
Attempt Record log, the Invocation Outcome, and the time of the final
attempt (total elapsed suspension). -/
def runFrom {α : Type} (body : Nat → Except String α) (d : Nat) :
    Nat → Nat → Nat → List (AttemptRecord α) × Outcome α × Nat
  | 0, i, now =>
    match body i with
    | Except.ok v => ([⟨i, Except.ok v, now⟩], Outcome.success v, now)
    | Except.error e => ([⟨i, Except.error e, now⟩], Outcome.retriesExhausted e, now)
  | remaining + 1, i, now =>
    match body i with
    | Except.ok v => ([⟨i, Except.ok v, now⟩], Outcome.success v, now)
    | Except.error e =>
      let rest := runFrom body d remaining (i + 1) (now + d)
      (⟨i, Except.error e, now⟩ :: rest.1, rest.2.1, rest.2.2)

/-- Modelled from the spec: one invocation `run(task, *args)` of the
Retrying Task Executor with `maxRetries` retries and retry delay `d`,
starting at attempt 1 and time 0. -/
def run {α : Type} (body : Nat → Except String α) (maxRetries d : Nat) :
    List (AttemptRecord α) × Outcome α × Nat :=
  runFrom body d maxRetries 1 0

/-- The log never holds more records than one plus the retries remaining. -/
theorem runFrom_length_le {α : Type} (body : Nat → Except String α) (d : Nat) :
    ∀ (r i now : Nat), (runFrom body d r i now).1.length ≤ r + 1 := by
  intro r
  induction r with
  | zero =>
    intro i now
    cases hb : body i <;> simp [runFrom, hb]
  | succ r ih =>
    intro i now
    cases hb : body i <;> simp [runFrom, hb]
    exact Nat.le_trans (ih (i + 1) (now + d)) (by omega)

/-- Every record in the log has ordinal at least the starting ordinal and
timestamp at least the starting time. -/
theorem runFrom_mem_lb {α : Type} (body : Nat → Except String α) (d : Nat) :
    ∀ (r i now : Nat), ∀ a ∈ (runFrom body d r i now).1,
      i ≤ a.idx ∧ now ≤ a.time := by
  intro r
  induction r with
  | zero =>
    intro i now a ha
    cases hb : body i
    case ok v =>
      simp [runFrom, hb] at ha
      simp [ha]
    case error e =>
      simp [runFrom, hb] at ha
      simp [ha]
  | succ r ih =>
    intro i now a ha
    cases hb : body i
    case ok v =>
      simp [runFrom, hb] at ha
      simp [ha]
    case error e =>
      simp [runFrom, hb] at ha
      rcases ha with ha | ha
      · simp [ha]
      · have := ih (i + 1) (now + d) a ha
        omega

/-- The log is strictly increasing in ordinal index and non-decreasing in
timestamp. -/
theorem runFrom_pairwise {α : Type} (body : Nat → Except String α) (d : Nat) :
    ∀ (r i now : Nat), (runFrom body d r i now).1.Pairwise
      (fun a b => a.idx < b.idx ∧ a.time ≤ b.time) := by
  intro r
  induction r with
  | zero =>
    intro i now
    cases hb : body i <;> simp [runFrom, hb]
  | succ r ih =>
    intro i now
    cases hb : body i <;> simp [runFrom, hb]
    refine ⟨?_, ih (i + 1) (now + d)⟩
    intro a ha
    have := runFrom_mem_lb body d r (i + 1) (now + d) a ha
    omega

/-- If the body fails on every attempt, the loop runs all remaining
attempts: the log has one record per attempt, every record is a failure,
the outcome carries the last attempt's error, and the final time adds one
delay per retry. -/
theorem runFrom_allfail {α : Type} (body : Nat → Except String α) (d : Nat)
    (hf : ∀ j, ∃ e, body j = Except.error e) :
    ∀ (r i now : Nat),
      (runFrom body d r i now).1.length = r + 1 ∧
      (∀ a ∈ (runFrom body d r i now).1, ∃ e, a.result = Except.error e) ∧
      (∃ e, body (i + r) = Except.error e ∧
        (runFrom body d r i now).2.1 = Outcome.retriesExhausted e) ∧
      (runFrom body d r i now).2.2 = now + r * d := by
  intro r
  induction r with
  | zero =>
    intro i now
    obtain ⟨e, he⟩ := hf i
    refine ⟨by simp [runFrom, he], ?_, ⟨e, by simpa using he, by simp [runFrom, he]⟩,
      by simp [runFrom, he]⟩
    intro a ha
    simp [runFrom, he] at ha
    exact ⟨e, by simp [ha]⟩
  | succ r ih =>
    intro i now
    obtain ⟨e, he⟩ := hf i
    obtain ⟨ih1, ih2, ⟨e2, he2, ho2⟩, ih4⟩ := ih (i + 1) (now + d)
    refine ⟨by simp [runFrom, he, ih1], ?_, ⟨e2, ?_, by simp [runFrom, he, ho2]⟩, ?_⟩
    · intro a ha
      simp [runFrom, he] at ha
      rcases ha with ha | ha
      · exact ⟨e, by simp [ha]⟩
      · exact ih2 a ha
    · have : i + (r + 1) = i + 1 + r := by omega
      rw [this]
      exact he2
    · simp [runFrom, he, ih4]
      ring

/-- If the body fails on the `k` attempts starting at `i` and succeeds on
attempt `i + k`, with `k` within the remaining retries, the loop yields
`k` failure records followed by one success record, the success outcome,
and `k` delays. -/
theorem runFrom_failthen {α : Type} (body : Nat → Except String α) (d : Nat) (v : α) :
    ∀ (k r i now : Nat), k ≤ r →
      (∀ j, i ≤ j → j < i + k → ∃ e, body j = Except.error e) →
      body (i + k) = Except.ok v →
      ∃ l s, (runFrom body d r i now).1 = l ++ [s] ∧ l.length = k ∧
        (∀ a ∈ l, ∃ e, a.result = Except.error e) ∧
        s.result = Except.ok v ∧
        (runFrom body d r i now).2.1 = Outcome.success v ∧
        (runFrom body d r i now).2.2 = now + k * d := by
  intro k
  induction k with
  | zero =>
    intro r i now _ _ hs
    rw [Nat.add_zero] at hs
    refine ⟨[], ⟨i, Except.ok v, now⟩, ?_⟩
    cases r <;> simp [runFrom, hs]
  | succ k ih =>
    intro r i now hk hfail hs
    obtain ⟨r2, rfl⟩ : ∃ r2, r = r2 + 1 := ⟨r - 1, by omega⟩
    obtain ⟨e, he⟩ := hfail i (Nat.le_refl i) (by omega)
    have hs2 : body (i + 1 + k) = Except.ok v := by
      have : i + 1 + k = i + (k + 1) := by omega
      rw [this]
      exact hs
    obtain ⟨l, s, h1, h2, h3, h4, h5, h6⟩ :=
      ih r2 (i + 1) (now + d) (by omega)
        (fun j hj1 hj2 => hfail j (by omega) (by omega)) hs2
    refine ⟨⟨i, Except.error e, now⟩ :: l, s, ?_, by simp [h2], ?_, h4, ?_, ?_⟩
    · simp [runFrom, he, h1]
    · intro a ha
      rcases List.mem_cons.mp ha with ha | ha
      · exact ⟨e, by simp [ha]⟩
      · exact h3 a ha
    · simp [runFrom, he, h5]
    · simp [runFrom, he, h6]
      ring

/-- A terminal failure outcome means the body failed on every attempt the
loop made, and the surfaced error is the final attempt's. -/
theorem runFrom_exhausted {α : Type} (body : Nat → Except String α) (d : Nat) :
    ∀ (r i now : Nat) (e : String),
      (runFrom body d r i now).2.1 = Outcome.retriesExhausted e →
      body (i + r) = Except.error e ∧
      (∀ k, i ≤ k → k ≤ i + r → ∃ e2, body k = Except.error e2) := by
  intro r
  induction r with
  | zero =>
    intro i now e ho
    cases hb : body i
    case ok v => simp [runFrom, hb] at ho
    case error e2 =>
      simp [runFrom, hb] at ho
      refine ⟨?_, ?_⟩
      · rw [Nat.add_zero, hb, ho]
      · intro k hk1 hk2
        have hk : k = i := by omega
        exact ⟨e2, by rw [hk]; exact hb⟩
  | succ r ih =>
    intro i now e ho
    cases hb : body i
    case ok v => simp [runFrom, hb] at ho
    case error e2 =>
      simp [runFrom, hb] at ho
      obtain ⟨h1, h2⟩ := ih (i + 1) (now + d) e ho
      refine ⟨?_, ?_⟩
      · have : i + (r + 1) = i + 1 + r := by omega
        rw [this]
        exact h1
      · intro k hk1 hk2
        rcases Nat.eq_or_lt_of_le hk1 with hk | hk
        · exact ⟨e2, by rw [← hk]; exact hb⟩
        · exact h2 k (by omega) (by omega)

/-- A success outcome means the body succeeded with that value on some
attempt the loop made. -/
theorem runFrom_success {α : Type} (body : Nat → Except String α) (d : Nat) :
    ∀ (r i now : Nat) (v : α),
      (runFrom body d r i now).2.1 = Outcome.success v →
      ∃ k, i ≤ k ∧ k ≤ i + r ∧ body k = Except.ok v := by
  intro r
  induction r with
  | zero =>
    intro i now v ho
    cases hb : body i
    case ok w =>
      simp [runFrom, hb] at ho
      exact ⟨i, Nat.le_refl i, by omega, by rw [hb, ho]⟩
    case error e => simp [runFrom, hb] at ho
  | succ r ih =>
    intro i now v ho
    cases hb : body i
    case ok w =>
      simp [runFrom, hb] at ho
      exact ⟨i, Nat.le_refl i, by omega, by rw [hb, ho]⟩
    case error e =>
      simp [runFrom, hb] at ho
      obtain ⟨k, hk1, hk2, hk3⟩ := ih (i + 1) (now + d) v ho
      exact ⟨k, by omega, by omega, hk3⟩

/-- After `d[k] = v`, looking up `k` yields `v`. -/
theorem dictGet_dictSet_self (d : Dict) (k : String) (v : PyPrim) :
    dictGet (dictSet d k v) k = some v := by
  induction d with
  | nil => simp [dictSet, dictGet]
  | cons hd tl ih =>
    obtain ⟨k0, v0⟩ := hd
    by_cases h : k0 = k
    · simp [dictSet, dictGet, h]
    · simp [dictSet, dictGet, h, ih]

/-- After `d[k] = v`, every other key is unchanged. -/
theorem dictGet_dictSet_ne (d : Dict) (k k2 : String) (v : PyPrim) (h : k2 ≠ k) :
    dictGet (dictSet d k v) k2 = dictGet d k2 := by
  induction d with
  | nil => simp [dictSet, dictGet, Ne.symm h]
  | cons hd tl ih =>
    obtain ⟨k0, v0⟩ := hd
    by_cases h0 : k0 = k
    · subst h0
      simp [dictSet, dictGet, Ne.symm h]
    · simp [dictSet, dictGet, h0, ih]

/-- Claim C1: for every `max_retries = n ≥ 0`, running the executor on a
work body that fails on every attempt produces exactly `n + 1` Attempt
Records, all of them failures, and the invocation ends in a
RetriesExhausted outcome carrying the last attempt's error description. -/
theorem claim_c1 {α : Type} (body : Nat → Except String α) (n d : Nat)
    (hf : ∀ j, ∃ e, body j = Except.error e) :
    (run body n d).1.length = n + 1 ∧
    (∀ a ∈ (run body n d).1, ∃ e, a.result = Except.error e) ∧
    ∃ e, body (n + 1) = Except.error e ∧
      (run body n d).2.1 = Outcome.retriesExhausted e := by
  obtain ⟨h1, h2, ⟨e, he, ho⟩, _⟩ := runFrom_allfail body d hf n 1 0
  exact ⟨h1, h2, e, by rwa [Nat.add_comm] at he, ho⟩

/-- Witness for C1 at the always-failing body, `max_retries = 2`,
delay 1. -/
theorem claim_c1_witness :
    (run (fun _ => (Except.error "boom" : Except String Nat)) 2 1).1.length = 3 ∧
    (run (fun _ => (Except.error "boom" : Except String Nat)) 2 1).2.1 =
      Outcome.retriesExhausted "boom" := by
  have h := claim_c1 (fun _ => (Except.error "boom" : Except String Nat)) 2 1
    (fun j => ⟨"boom", rfl⟩)
  exact ⟨h.1, by decide⟩

/-- Claim C2: for every `max_retries = n ≥ 0`, running the executor on a
work body that succeeds on its first call produces exactly one Attempt
Record (a success), returns the work body's value immediately with no
further attempts, and incurs no retry delay. -/
theorem claim_c2 {α : Type} (body : Nat → Except String α) (n d : Nat) (v : α)
    (h : body 1 = Except.ok v) :
    run body n d = ([⟨1, Except.ok v, 0⟩], Outcome.success v, 0) := by
  cases n <;> simp [run, runFrom, h]

/-- Witness for C2 at a body returning 7 on every call, `max_retries = 4`,
delay 2. -/
theorem claim_c2_witness :
    run (fun _ => (Except.ok 7 : Except String Nat)) 4 2 =
      ([⟨1, Except.ok 7, 0⟩], Outcome.success 7, 0) :=
  claim_c2 (fun _ => (Except.ok 7 : Except String Nat)) 4 2 7 rfl

/-- Claim C3: a work body that fails on attempts `1..k` (with
`k ≤ max_retries`) and succeeds on attempt `k + 1` produces exactly
`k + 1` Attempt Records (`k` failures followed by one success), the
outcome is the success value from attempt `k + 1`, and the elapsed
suspension is `k` delays (in particular `max_retries = 4`, failures on
attempts 1-3, success on attempt 4: four records, attempt 4's value,
3 × 2 time units). -/
theorem claim_c3 {α : Type} (body : Nat → Except String α) (n d k : Nat) (v : α)
    (hk : k ≤ n)
    (hfail : ∀ j, 1 ≤ j → j ≤ k → ∃ e, body j = Except.error e)
    (hsucc : body (k + 1) = Except.ok v) :
    ∃ l s, (run body n d).1 = l ++ [s] ∧
      (run body n d).1.length = k + 1 ∧ l.length = k ∧
      (∀ a ∈ l, ∃ e, a.result = Except.error e) ∧
      s.result = Except.ok v ∧
      (run body n d).2.1 = Outcome.success v ∧
      (run body n d).2.2 = k * d := by
  obtain ⟨l, s, h1, h2, h3, h4, h5, h6⟩ :=
    runFrom_failthen body d v k n 1 0 hk
      (fun j hj1 hj2 => hfail j hj1 (by omega)) (by rwa [Nat.add_comm] at hsucc)
  refine ⟨l, s, h1, ?_, h2, h3, h4, h5, by simpa using h6⟩
  simp only [run]
  rw [h1]
  simp [h2]

/-- Witness for C3: `max_retries = 4`, delay 2, failures on attempts 1-3,
success (value 42) on attempt 4: four records, outcome 42, elapsed 6. -/
theorem claim_c3_witness :
    (run (fun j => if j ≤ 3 then Except.error "boom" else
        (Except.ok 42 : Except String Nat)) 4 2).1.length = 4 ∧
    (run (fun j => if j ≤ 3 then Except.error "boom" else
        (Except.ok 42 : Except String Nat)) 4 2).2.1 = Outcome.success 42 ∧
    (run (fun j => if j ≤ 3 then Except.error "boom" else
        (Except.ok 42 : Except String Nat)) 4 2).2.2 = 6 := by
  obtain ⟨l, s, _, h2, _, _, _, h5, h6⟩ :=
    claim_c3 (fun j => if j ≤ 3 then Except.error "boom" else
        (Except.ok 42 : Except String Nat)) 4 2 3 42 (by omega)
      (fun j hj1 hj2 => ⟨"boom", by simp [hj2]⟩) rfl
  exact ⟨h2, h5, h6⟩

/-- Claim C4: at every point during an invocation (hence for every prefix
of the final log), the number of Attempt Records never exceeds
`max_retries + 1`, and the ordered sequence of Attempt Records is
monotonically increasing by ordinal index and chronologically ordered. -/
theorem claim_c4 {α : Type} (body : Nat → Except String α) (n d m : Nat) :
    ((run body n d).1.take m).length ≤ n + 1 ∧
    ((run body n d).1.take m).Pairwise
      (fun a b => a.idx < b.idx ∧ a.time ≤ b.time) := by
  constructor
  · exact Nat.le_trans (List.take_sublist m _).length_le
      (runFrom_length_le body d n 1 0)
  · exact (runFrom_pairwise body d n 1 0).sublist (List.take_sublist m _)

/-- Claim C5: with `max_retries = 0` the executor performs exactly one
attempt and never retries; if the work body fails on that single attempt,
exactly one failure record is produced and the outcome is
RetriesExhausted carrying that error. -/
theorem claim_c5 {α : Type} (d : Nat) :
    (∀ body : Nat → Except String α, (run body 0 d).1.length = 1) ∧
    (∀ (body : Nat → Except String α) (e : String), body 1 = Except.error e →
      run body 0 d = ([⟨1, Except.error e, 0⟩], Outcome.retriesExhausted e, 0)) := by
  constructor
  · intro body
    cases hb : body 1 <;> simp [run, runFrom, hb]
  · intro body e hb
    simp [run, runFrom, hb]

/-- Witness for C5 at an always-failing body with delay 7. -/
theorem claim_c5_witness :
    run (fun _ => (Except.error "down" : Except String Nat)) 0 7 =
      ([⟨1, Except.error "down", 0⟩], Outcome.retriesExhausted "down", 0) :=
  (claim_c5 7).2 (fun _ => Except.error "down") "down" rfl

/-- Claim C6: errors raised on non-final attempts never escape to the
caller: the only outcomes are the final success value (produced by the
body on some attempt within the bound) or the exhaustion failure, which
carries the error of the final attempt `n + 1` and implies the body
failed on every attempt. -/
theorem claim_c6 {α : Type} (body : Nat → Except String α) (n d : Nat) :
    (∀ e, (run body n d).2.1 = Outcome.retriesExhausted e →
      body (n + 1) = Except.error e ∧
      ∀ k, 1 ≤ k → k ≤ n + 1 → ∃ e2, body k = Except.error e2) ∧
    (∀ v, (run body n d).2.1 = Outcome.success v →
      ∃ k, 1 ≤ k ∧ k ≤ n + 1 ∧ body k = Except.ok v) := by
  constructor
  · intro e ho
    obtain ⟨h1, h2⟩ := runFrom_exhausted body d n 1 0 e ho
    exact ⟨by rwa [Nat.add_comm] at h1, fun k hk1 hk2 => h2 k hk1 (by omega)⟩
  · intro v ho
    obtain ⟨k, hk1, hk2, hk3⟩ := runFrom_success body d n 1 0 v ho
    exact ⟨k, hk1, by omega, hk3⟩

/-- Witness for C6 at an always-failing body, `max_retries = 2`, delay 1:
the surfaced exhaustion error is the final attempt's. -/
theorem claim_c6_witness :
    (fun _ => (Except.error "oops" : Except String Nat)) 3 = Except.error "oops" :=
  ((claim_c6 (fun _ => (Except.error "oops" : Except String Nat)) 2 1).1
    "oops" (by decide)).1

/-- Counterexample to claim C7: the notebook also defines `pipeline`, a
fourth function outside the claimed list, and the number of defined
functions is not two. -/
theorem claim_c7_counterexample :
    "pipeline" ∈ notebookDefs ∧
    "pipeline" ∉ ["call_unreliable_api", "augment_data", "write_results_to_database"] ∧
    notebookDefs.length ≠ 2 := by
  decide

/-- Claim C7 (amended): the notebook defines exactly four distinct
functions: `call_unreliable_api`, `augment_data`,
`write_results_to_database`, and `pipeline`. -/
theorem claim_c7_amended :
    notebookDefs =
      ["call_unreliable_api", "augment_data", "write_results_to_database", "pipeline"] ∧
    notebookDefs.length = 4 ∧ notebookDefs.Nodup := by
  decide

/-- Claim C8: every execution of `call_unreliable_api` has exactly one of
two outcomes, determined by the random choice over
`[{"data": 42}, "failure"]`: it returns the dict `{"data": 42}` when the
choice is not `"failure"`, and it raises an exception with message
`"Our unreliable service failed"` if and only if the choice is
`"failure"`. -/
theorem claim_c8 (pick : Fin choices.length) :
    (choices.get pick = PyVal.prim (PyPrim.pstr "failure") →
      call_unreliable_api pick = Except.error "Our unreliable service failed") ∧
    (choices.get pick ≠ PyVal.prim (PyPrim.pstr "failure") →
      call_unreliable_api pick = Except.ok (PyVal.vdict [("data", PyPrim.pint 42)])) ∧
    (call_unreliable_api pick = Except.error "Our unreliable service failed" ↔
      choices.get pick = PyVal.prim (PyPrim.pstr "failure")) := by
  revert pick
  decide

/-- Witness for C8 at the `"failure"` choice (index 1). -/
theorem claim_c8_witness :
    call_unreliable_api ⟨1, by decide⟩ = Except.error "Our unreliable service failed" :=
  (claim_c8 ⟨1, by decide⟩).1 (by decide)

/-- Claim C9: for every dict reference `data` and string `msg`,
`augment_data(data, msg)` returns the very dict reference it was passed,
mutated in place so that its key `"message"` maps to `msg`, while every
other key keeps its original value. -/
theorem claim_c9 (heap : Heap) (data : Nat) (msg : String) :
    (augment_data heap data msg).2 = data ∧
    dictGet ((augment_data heap data msg).1 data) "message" =
      some (PyPrim.pstr msg) ∧
    ∀ k, k ≠ "message" →
      dictGet ((augment_data heap data msg).1 data) k = dictGet (heap data) k := by
  refine ⟨rfl, ?_, ?_⟩
  · simp [augment_data, Function.update_same, dictGet_dictSet_self]
  · intro k hk
    simp [augment_data, Function.update_same, dictGet_dictSet_ne _ _ _ _ hk]

/-- Witness for C9 on the dict `{"data": 42}`: the same reference comes
back and the key `"data"` keeps its value. -/
theorem claim_c9_witness :
    (augment_data heap0 0 "hello").2 = 0 ∧
    dictGet ((augment_data heap0 0 "hello").1 0) "data" =
      some (PyPrim.pint 42) := by
  have h := claim_c9 heap0 0 "hello"
  exact ⟨h.1, (h.2.2 "data" (by decide)).trans (by decide)⟩

/-- Claim C10: `write_results_to_database` returns `"Success!"` on every
input dict; and whenever `call_unreliable_api` succeeds inside
`pipeline(msg)`, the dict passed to `write_results_to_database` is
exactly `{"data": 42, "message": msg}` and `pipeline` returns `None`. -/
theorem claim_c10 :
    (∀ dd : Dict, (write_results_to_database dd).2 = "Success!") ∧
    ∀ (pick : Fin choices.length) (msg : String) (v : PyVal),
      call_unreliable_api pick = Except.ok v →
      pipeline pick msg =
        Except.ok ([("data", PyPrim.pint 42), ("message", PyPrim.pstr msg)],
          "Success!", none) := by
  constructor
  · intro dd
    rfl
  · intro pick msg v h
    rcases pick with ⟨iv, hiv⟩
    have h2 : iv < 2 := by simpa [choices] using hiv
    interval_cases iv
    · rfl
    · simp [call_unreliable_api, choices] at h

/-- Witness for C10: with the dict choice (index 0) and message "hi". -/
theorem claim_c10_witness :
    pipeline ⟨0, by decide⟩ "hi" =
      Except.ok ([("data", PyPrim.pint 42), ("message", PyPrim.pstr "hi")],
        "Success!", none) :=
  claim_c10.2 ⟨0, by decide⟩ "hi" (PyVal.vdict [("data", PyPrim.pint 42)]) rfl

end P101
